import Mathlib

/-!
Verification development for the wger-mcp routine composition engine.

The TypeScript handlers in `src/tools/` are shallowly embedded as Lean
functions over an explicit remote-client interface.  JavaScript numbers are
modelled as `Rat`, JS strings as Lean `String` (one `Char` per UTF-16 unit in
the cases exercised here), and a `Record<string, unknown>` argument object as
a function from key to `JsVal`.  Remote calls are threaded through a small
state-and-trace monad so that the requests a handler issues, and the point at
which it aborts on a remote failure, are part of the observable result.
-/

/-- A JavaScript runtime value as it appears in tool arguments and in JSON
bodies transmitted to the remote store. `undefined` stands for the JS value of that name. -/
inductive JsVal where
  | num (q : Rat)
  | str (s : String)
  | bool (b : Bool)
  | undefined
  deriving DecidableEq, Repr

/-- Raw tool arguments: the source handlers all take `Record<string, unknown>`. -/
abbrev RawArgs : Type := String → JsVal

/-- The three per-metric configuration kinds (collections `/sets-config/`,
`/repetitions-config/`, `/weight-config/`). -/
inductive CfgKind where
  | sets
  | reps
  | weight
  deriving DecidableEq, Repr

/-- Day entity as read and written by the handlers (fields from
`src/types/wger` usage in the tools and spec section 3). -/
structure Day where
  id : Rat
  routine : Rat
  name : String
  description : Option String
  is_rest : Bool
  order : Rat
  deriving DecidableEq, Repr

/-- Slot entity. -/
structure Slot where
  id : Rat
  day : Rat
  order : Rat
  deriving DecidableEq, Repr

/-- Slot entry entity. -/
structure SlotEntry where
  id : Rat
  slot : Rat
  exercise : Rat
  order : Rat
  comment : String
  deriving DecidableEq, Repr

/-- Metric config entity (sets / repetitions / weight config records).
`value` is a `JsVal` because the weight collection stores strings while
sets/repetitions store numbers. -/
structure Config where
  id : Rat
  slot_entry : Rat
  iteration : Rat
  value : JsVal
  deriving DecidableEq, Repr

/-- Routine entity (only the fields the read path touches). -/
structure Routine where
  id : Rat
  name : String
  description : Option String
  deriving DecidableEq, Repr

/-- Body of `POST /day/` as built by `addDayToRoutineHandler` and
`addExerciseToRoutineHandler` (the latter also sends `type: 'custom'`). -/
structure DayPost where
  routine : Rat
  name : String
  description : Option String
  is_rest : Bool
  order : Rat
  dtype : Option String
  deriving DecidableEq, Repr

/-- Body of `POST /slot/`. -/
structure SlotPost where
  day : Rat
  order : Rat
  deriving DecidableEq, Repr

/-- Body of `POST /slot-entry/`. -/
structure EntryPost where
  slot : Rat
  exercise : Rat
  order : Rat
  comment : String
  deriving DecidableEq, Repr

/-- Body of `POST` to a config collection. -/
structure CfgPost where
  slot_entry : Rat
  iteration : Rat
  value : JsVal
  deriving DecidableEq, Repr

/-- Body of `PATCH /day/{id}/` after JSON serialization: object properties
whose value is `undefined` are omitted by `JSON.stringify`, so each field is
an `Option`, `none` meaning the key is absent from the transmitted body. -/
structure DayPatch where
  description : Option String
  is_rest : Option Bool
  name : Option String
  deriving DecidableEq, Repr

/-- One remote interaction issued by a handler, recorded in order. -/
inductive Request where
  | getToken
  | listDays (routine : Rat) (limit : Option Rat)
  | getRoutine (id : Rat)
  | listSlots (day : Rat) (limit : Option Rat)
  | listEntries (slot : Rat) (limit : Option Rat)
  | listCfg (kind : CfgKind) (slot_entry : Rat)
  | postDay (body : DayPost)
  | postSlot (body : SlotPost)
  | postEntry (body : EntryPost)
  | postCfg (kind : CfgKind) (body : CfgPost)
  | patchCfg (kind : CfgKind) (id : Rat) (value : JsVal)
  | patchDay (id : Rat) (body : DayPatch)
  | deleteDay (id : Rat)
  | deleteSlot (id : Rat)
  deriving DecidableEq, Repr

/-- Errors a handler can surface: `authErr` is the `AuthenticationError`
thrown on missing credentials, `zodErr` a raw schema-library error escaping
an unguarded `Schema.parse`, `validationErr` the repository's
`ValidationError` wrapper, and `remoteErr k` a failure of the remote client
carrying an opaque identity `k` (propagation must preserve `k`). -/
inductive Err where
  | authErr
  | zodErr
  | validationErr
  | remoteErr (code : Nat)
  deriving DecidableEq, Repr

/-- Trace of remote interactions, in issue order. -/
abbrev Trace : Type := List Request

/-- Handler monad: threads the remote collaborator's state `σ` and the
request trace, short-circuiting on the first error (JS exception). -/
def M (σ : Type) (α : Type) : Type := σ → Trace → Except Err α × σ × Trace

def M.pure (a : α) : M σ α := fun s t => (.ok a, s, t)

def M.bind (x : M σ α) (f : α → M σ β) : M σ β := fun s t =>
  match x s t with
  | (.ok a, s', t') => f a s' t'
  | (.error e, s', t') => (.error e, s', t')

instance : Monad (M σ) where
  pure := M.pure
  bind := M.bind

/-- Throw a handler-level error (no remote interaction recorded). -/
def throwE (e : Err) : M σ α := fun s t => (.error e, s, t)

/-- Issue one remote call: record the request, run the collaborator's state
transformer, and map its failure code into `Err.remoteErr` (the handlers
never translate or retry remote failures). -/
def callRemote (req : Request) (m : σ → Except Nat α × σ) : M σ α := fun s t =>
  match m s with
  | (.ok a, s') => (.ok a, s', t ++ [req])
  | (.error k, s') => (.error (.remoteErr k), s', t ++ [req])

/-- The remote collaborator (`wgerClient` plus `authManager.getToken`),
one state-transforming method per endpoint/verb the handlers use. -/
structure Remote (σ : Type) where
  getToken : σ → Except Nat Unit × σ
  listDays : Rat → Option Rat → σ → Except Nat (List Day) × σ
  getRoutine : Rat → σ → Except Nat Routine × σ
  listSlots : Rat → Option Rat → σ → Except Nat (List Slot) × σ
  listEntries : Rat → Option Rat → σ → Except Nat (List SlotEntry) × σ
  listCfg : CfgKind → Rat → σ → Except Nat (List Config) × σ
  postDay : DayPost → σ → Except Nat Day × σ
  postSlot : SlotPost → σ → Except Nat Slot × σ
  postEntry : EntryPost → σ → Except Nat SlotEntry × σ
  postCfg : CfgKind → CfgPost → σ → Except Nat Config × σ
  patchCfg : CfgKind → Rat → JsVal → σ → Except Nat Config × σ
  patchDay : Rat → DayPatch → σ → Except Nat Day × σ
  deleteDay : Rat → σ → Except Nat Unit × σ
  deleteSlot : Rat → σ → Except Nat Unit × σ

/-- JS `s.substring(0, n)`: the first `n` units of the string. -/
def strTake (s : String) (n : Nat) : String := ⟨s.data.take n⟩

/-- Decimal digits of a natural number, most significant first (the digits a
JS template literal renders for a nonnegative integer). -/
def natDigits (n : Nat) : List Char :=
  if h : n < 10 then [Char.ofNat (48 + n)]
  else natDigits (n / 10) ++ [Char.ofNat (48 + n % 10)]
  decreasing_by exact Nat.div_lt_self (by omega) (by omega)

/-- Decimal rendering of a natural number, as in a JS template literal. -/
def natRepr (n : Nat) : String := ⟨natDigits n⟩

/-- Decimal rendering of an integer. -/
def intRepr (i : Int) : String :=
  if i < 0 then "-" ++ natRepr i.natAbs else natRepr i.natAbs

/-- Model of JavaScript `Number.prototype.toString` on the rationals standing
in for JS numbers.  Integral values render exactly as JS does; the rendering
chosen for non-integral values is a stand-in (the claims under verification
depend only on the transmitted value being the string serialization of the
number, never on its digit sequence). -/
def numToString (q : Rat) : String :=
  if q.den = 1 then intRepr q.num
  else intRepr q.num ++ "/" ++ natRepr q.den

/-- Parsed input of `AddDaySchema` (zod, `src/tools/manage-day.ts`). -/
structure AddDayInput where
  routineId : Rat
  description : Option String
  is_rest : Bool
  deriving DecidableEq, Repr

/-- Parsed input of `UpdateDaySchema` (zod, `src/tools/manage-day.ts`). -/
structure UpdateDayInput where
  dayId : Rat
  description : Option String
  is_rest : Option Bool
  name : Option String
  deriving DecidableEq, Repr

/-- Parsed input of `UpdateExerciseSchema` (zod, `src/tools/update-exercise`). -/
structure UpdateExerciseInput where
  slotEntryId : Rat
  sets : Option Rat
  reps : Option Rat
  weight : Option Rat
  deriving DecidableEq, Repr

/-- Parsed input of `AddExerciseToRoutineSchema`. -/
structure AddExerciseInput where
  routineId : Rat
  exerciseId : Rat
  sets : Rat
  reps : Rat
  weight : Option Rat
  dayName : Option String
  comment : Option String
  deriving DecidableEq, Repr

/-- Zod `z.number()` on a raw field: accepts exactly a JS number. -/
def parseNum (v : JsVal) : Except Unit Rat :=
  match v with
  | .num q => .ok q
  | _ => .error ()

/-- Zod `z.number().optional()`: `undefined` is accepted as absent. -/
def parseOptNum (v : JsVal) : Except Unit (Option Rat) :=
  match v with
  | .num q => .ok (some q)
  | .undefined => .ok none
  | _ => .error ()

/-- Zod `z.string().optional()`. -/
def parseOptStr (v : JsVal) : Except Unit (Option String) :=
  match v with
  | .str s => .ok (some s)
  | .undefined => .ok none
  | _ => .error ()

/-- Zod `z.boolean().optional()`. -/
def parseOptBool (v : JsVal) : Except Unit (Option Bool) :=
  match v with
  | .bool b => .ok (some b)
  | .undefined => .ok none
  | _ => .error ()

/-- Zod `AddDaySchema.parse`: `routineId` number, `description` optional
string, `is_rest` optional boolean defaulting to `false`. -/
def parseAddDay (a : RawArgs) : Except Unit AddDayInput := do
  let routineId ← parseNum (a "routineId")
  let description ← parseOptStr (a "description")
  let is_rest ← parseOptBool (a "is_rest")
  .ok ⟨routineId, description, is_rest.getD false⟩

/-- Zod `UpdateDaySchema.parse`. -/
def parseUpdateDay (a : RawArgs) : Except Unit UpdateDayInput := do
  let dayId ← parseNum (a "dayId")
  let description ← parseOptStr (a "description")
  let is_rest ← parseOptBool (a "is_rest")
  let name ← parseOptStr (a "name")
  .ok ⟨dayId, description, is_rest, name⟩

/-- Zod `DeleteDaySchema.parse`: `dayId` number. -/
def parseDeleteDay (a : RawArgs) : Except Unit Rat := parseNum (a "dayId")

/-- Zod `DeleteSlotSchema.parse`: `slotId` number. -/
def parseDeleteSlot (a : RawArgs) : Except Unit Rat := parseNum (a "slotId")

/-- Zod `GetRoutineDetailsSchema.parse`: `routineId` number. -/
def parseGetRoutineDetails (a : RawArgs) : Except Unit Rat :=
  parseNum (a "routineId")

/-- Zod `UpdateExerciseSchema.parse`. -/
def parseUpdateExercise (a : RawArgs) : Except Unit UpdateExerciseInput := do
  let slotEntryId ← parseNum (a "slotEntryId")
  let sets ← parseOptNum (a "sets")
  let reps ← parseOptNum (a "reps")
  let weight ← parseOptNum (a "weight")
  .ok ⟨slotEntryId, sets, reps, weight⟩

/-- Modelled from the spec: `AddExerciseToRoutineSchema.parse` lives in
`src/schemas/tools`, which is not among the provided sources.  Its
constraints are taken from the tool's declared input schema in
`src/tools/add-exercise-to-routine.ts` and spec sections 4.4 and 6:
`routineId`/`exerciseId` numbers, `sets` a number in [1,10], `reps` a number
in [1,100], `weight` an optional nonnegative number, `dayName` an optional
string, `comment` an optional string of at most 100 characters. -/
def parseAddExercise (a : RawArgs) : Except Unit AddExerciseInput := do
  let routineId ← parseNum (a "routineId")
  let exerciseId ← parseNum (a "exerciseId")
  let sets ← parseNum (a "sets")
  let reps ← parseNum (a "reps")
  let weight ← parseOptNum (a "weight")
  let dayName ← parseOptStr (a "dayName")
  let comment ← parseOptStr (a "comment")
  if (decide (1 ≤ sets) && decide (sets ≤ 10) &&
      decide (1 ≤ reps) && decide (reps ≤ 100) &&
      (match weight with | some w => decide (0 ≤ w) | none => true) &&
      (match comment with | some c => decide (c.data.length ≤ 100) | none => true)) then
    .ok ⟨routineId, exerciseId, sets, reps, weight, dayName, comment⟩
  else .error ()

/-- Ascending comparison by a numeric `order`-style key: the relation the JS
comparator `(a, b) => a.order - b.order` sorts by. -/
def byOrder (key : α → Rat) (a b : α) : Prop := key a ≤ key b

instance (key : α → Rat) : DecidableRel (byOrder key) :=
  fun a b => inferInstanceAs (Decidable (key a ≤ key b))

instance (key : α → Rat) : IsTotal α (byOrder key) :=
  ⟨fun a b => le_total (key a) (key b)⟩

instance (key : α → Rat) : IsTrans α (byOrder key) :=
  ⟨fun _ _ _ h h2 => le_trans h h2⟩

/-- JS `array.sort((a, b) => key(a) - key(b))`: a stable ascending sort by
`key`, embedded as insertion sort (ECMAScript requires sort stability). -/
def sortByOrder (key : α → Rat) (l : List α) : List α :=
  l.insertionSort (byOrder key)

/-- Sequential embedding of a `Promise.all(list.map(f))` fan-out: with the
single remote collaborator threaded through the monad the joint await is
deterministic, so the parallel fan-out is equivalent to mapping in order. -/
def mmap (f : α → M σ β) : List α → M σ (List β)
  | [] => M.pure []
  | x :: xs => do
      let b ← f x
      let bs ← mmap f xs
      M.pure (b :: bs)

/-- Handler of `add_day_to_routine` (`src/tools/manage-day.ts`).  The
`DaySchema.parse` on the response is the identity here because responses are
already typed in the model. -/
def addDayToRoutineHandler (r : Remote σ) (hasCreds : Bool) (a : RawArgs) :
    M σ Day :=
  if !hasCreds then throwE .authErr else
  match parseAddDay a with
  | .error _ => throwE .zodErr
  | .ok input => do
      let _ ← callRemote .getToken r.getToken
      let daysRes ← callRemote (.listDays input.routineId none)
        (r.listDays input.routineId none)
      let currentCount := daysRes.length
      let nameVal := match input.description.map (fun d => strTake d 50) with
        | some s =>
            if s.data.isEmpty then "Day " ++ natRepr (currentCount + 1) else s
        | none => "Day " ++ natRepr (currentCount + 1)
      let body : DayPost :=
        ⟨input.routineId, nameVal, input.description, input.is_rest,
          (currentCount : Rat) + 1, none⟩
      let day ← callRemote (.postDay body) (r.postDay body)
      M.pure day

/-- Handler of `update_day` (`src/tools/manage-day.ts`).  The patch body
carries only the supplied fields: properties given as `undefined` are dropped
by JSON serialization before transmission. -/
def updateDayHandler (r : Remote σ) (hasCreds : Bool) (a : RawArgs) :
    M σ Day :=
  if !hasCreds then throwE .authErr else
  match parseUpdateDay a with
  | .error _ => throwE .zodErr
  | .ok input => do
      let _ ← callRemote .getToken r.getToken
      let body : DayPatch := ⟨input.description, input.is_rest, input.name⟩
      let day ← callRemote (.patchDay input.dayId body)
        (r.patchDay input.dayId body)
      M.pure day

/-- Handler of `delete_day` (`src/tools/manage-day.ts`); returns the id
echoed in the `{success: true, id}` result. -/
def deleteDayHandler (r : Remote σ) (hasCreds : Bool) (a : RawArgs) :
    M σ Rat :=
  if !hasCreds then throwE .authErr else
  match parseDeleteDay a with
  | .error _ => throwE .zodErr
  | .ok dayId => do
      let _ ← callRemote .getToken r.getToken
      let _ ← callRemote (.deleteDay dayId) (r.deleteDay dayId)
      M.pure dayId

/-- Handler of `delete_slot` (`src/tools/delete-slot.ts`). -/
def deleteSlotHandler (r : Remote σ) (hasCreds : Bool) (a : RawArgs) :
    M σ Rat :=
  if !hasCreds then throwE .authErr else
  match parseDeleteSlot a with
  | .error _ => throwE .zodErr
  | .ok slotId => do
      let _ ← callRemote .getToken r.getToken
      let _ ← callRemote (.deleteSlot slotId) (r.deleteSlot slotId)
      M.pure slotId

/-- Display label of a metric kind as used in the `updates` report strings. -/
def cfgLabel : CfgKind → String
  | .sets => "sets"
  | .reps => "reps"
  | .weight => "weight"

/-- The per-metric block of `updateExerciseInRoutineHandler`
(`src/tools/update-exercise`): fetch the configs filtered by `slot_entry`;
if any exist, patch the value of the first and report updated, else create
`{slot_entry, iteration: 1, value}` and report created.  The three blocks of
the source differ only in the collection and the transmitted value. -/
def upsertCfg (r : Remote σ) (kind : CfgKind) (sid : Rat) (v : JsVal) :
    M σ String := do
  let cfgs ← callRemote (.listCfg kind sid) (r.listCfg kind sid)
  match cfgs with
  | c :: _ => do
      let _ ← callRemote (.patchCfg kind c.id v) (r.patchCfg kind c.id v)
      M.pure (cfgLabel kind ++ " (updated)")
  | [] => do
      let body : CfgPost := ⟨sid, 1, v⟩
      let _ ← callRemote (.postCfg kind body) (r.postCfg kind body)
      M.pure (cfgLabel kind ++ " (created)")

/-- Handler of `update_exercise_in_routine` (`src/tools/update-exercise`);
returns the `updates` list of the `{success: true, updates}` result.  Weight
values are serialized with `toString()` before transmission; sets and reps
are sent as numbers. -/
def updateExerciseInRoutineHandler (r : Remote σ) (hasCreds : Bool)
    (a : RawArgs) : M σ (List String) :=
  if !hasCreds then throwE .authErr else
  match parseUpdateExercise a with
  | .error _ => throwE .zodErr
  | .ok input => do
      let _ ← callRemote .getToken r.getToken
      let u1 ← match input.sets with
        | some v => do
            let s ← upsertCfg r .sets input.slotEntryId (.num v)
            M.pure [s]
        | none => M.pure []
      let u2 ← match input.reps with
        | some v => do
            let s ← upsertCfg r .reps input.slotEntryId (.num v)
            M.pure [s]
        | none => M.pure []
      let u3 ← match input.weight with
        | some w => do
            let s ← upsertCfg r .weight input.slotEntryId (.str (numToString w))
            M.pure [s]
        | none => M.pure []
      M.pure (u1 ++ u2 ++ u3)

/-- Result of `add_exercise_to_routine`: the created slot entry spread
together with the created config ids. -/
structure AddExerciseResult where
  entry : SlotEntry
  setsConfigId : Rat
  repsConfigId : Rat
  weightConfigId : Option Rat
  deriving DecidableEq, Repr

/-- Handler of `add_exercise_to_routine`
(`src/tools/add-exercise-to-routine.ts`).  Schema failures are wrapped in
`ValidationError` by this handler (alone among the tools); the surrounding
try/catch of the source only logs and rethrows the error unchanged, so it is
not modelled.  `dayName || 'Workout Day'` falls back when `dayName` is
`undefined` or the empty string (JS truthiness), and `comment || ''` is
`Option.getD` on the empty string. -/
def addExerciseToRoutineHandler (r : Remote σ) (hasCreds : Bool)
    (a : RawArgs) : M σ AddExerciseResult :=
  if !hasCreds then throwE .authErr else
  match parseAddExercise a with
  | .error _ => throwE .validationErr
  | .ok input => do
      let _ ← callRemote .getToken r.getToken
      let dayNameToUse := match input.dayName with
        | some s => if s.data.isEmpty then "Workout Day" else s
        | none => "Workout Day"
      let daysRes ← callRemote (.listDays input.routineId none)
        (r.listDays input.routineId none)
      let existingDays := daysRes.filter (fun d => d.routine == input.routineId)
      let day ← match existingDays.find? (fun d => d.name == dayNameToUse) with
        | some d => M.pure d
        | none =>
            let body : DayPost :=
              ⟨input.routineId, dayNameToUse, none, false,
                (existingDays.length : Rat) + 1, some "custom"⟩
            callRemote (.postDay body) (r.postDay body)
      let slotBody : SlotPost := ⟨day.id, 1⟩
      let slot ← callRemote (.postSlot slotBody) (r.postSlot slotBody)
      let entryBody : EntryPost :=
        ⟨slot.id, input.exerciseId, 1, input.comment.getD ""⟩
      let entry ← callRemote (.postEntry entryBody) (r.postEntry entryBody)
      let setsBody : CfgPost := ⟨entry.id, 1, .num input.sets⟩
      let setsCfg ← callRemote (.postCfg .sets setsBody)
        (r.postCfg .sets setsBody)
      let repsBody : CfgPost := ⟨entry.id, 1, .num input.reps⟩
      let repsCfg ← callRemote (.postCfg .reps repsBody)
        (r.postCfg .reps repsBody)
      let weightCfg ← match input.weight with
        | some w => do
            let wBody : CfgPost := ⟨entry.id, 1, .str (numToString w)⟩
            let c ← callRemote (.postCfg .weight wBody)
              (r.postCfg .weight wBody)
            M.pure (some c)
        | none => M.pure (none : Option Config)
      M.pure ⟨entry, setsCfg.id, repsCfg.id, weightCfg.map (fun c => c.id)⟩

/-- A slot entry populated with the first config value of each kind
(`results[0]?.value`). -/
structure PopEntry where
  entry : SlotEntry
  sets : Option JsVal
  reps : Option JsVal
  weight : Option JsVal
  deriving DecidableEq, Repr

/-- A slot populated with its sorted entries. -/
structure PopSlot where
  slot : Slot
  entries : List PopEntry
  deriving DecidableEq, Repr

/-- A day populated with its sorted slots. -/
structure PopDay where
  day : Day
  slots : List PopSlot
  deriving DecidableEq, Repr

/-- The nested tree returned by `get_routine_details`. -/
structure DetailedRoutine where
  routine : Routine
  days : List PopDay
  deriving DecidableEq, Repr

/-- The innermost arrow function of `get_routine_details`: fetch the three
config collections for one entry (a parallel `Promise.all` in the source,
embedded in source order) and attach `results[0]?.value` of each. -/
def populateEntry (r : Remote σ) (entry : SlotEntry) : M σ PopEntry := do
  let setsRes ← callRemote (.listCfg .sets entry.id)
    (r.listCfg .sets entry.id)
  let repsRes ← callRemote (.listCfg .reps entry.id)
    (r.listCfg .reps entry.id)
  let weightRes ← callRemote (.listCfg .weight entry.id)
    (r.listCfg .weight entry.id)
  M.pure ⟨entry, (setsRes.head?).map Config.value,
    (repsRes.head?).map Config.value,
    (weightRes.head?).map Config.value⟩

/-- The per-slot arrow function of `get_routine_details`: fetch the slot's
entries, sort them by `order`, and populate each. -/
def populateSlot (r : Remote σ) (slot : Slot) : M σ PopSlot := do
  let entriesRes ← callRemote (.listEntries slot.id (some 100))
    (r.listEntries slot.id (some 100))
  let entries := sortByOrder SlotEntry.order entriesRes
  let populatedEntries ← mmap (populateEntry r) entries
  M.pure ⟨slot, populatedEntries⟩

/-- The per-day arrow function of `get_routine_details`: fetch the day's
slots, sort them by `order`, and populate each. -/
def populateDay (r : Remote σ) (day : Day) : M σ PopDay := do
  let slotsRes ← callRemote (.listSlots day.id (some 100))
    (r.listSlots day.id (some 100))
  let slots := sortByOrder Slot.order slotsRes
  let populatedSlots ← mmap (populateSlot r) slots
  M.pure ⟨day, populatedSlots⟩

/-- Handler of `get_routine_details` (source file also holding
`deleteSlotHandler`).  The `Promise.all` fan-outs are embedded as in-order
sequential maps, which is observationally equivalent here because the single
remote collaborator is threaded deterministically through the monad. -/
def getRoutineDetailsHandler (r : Remote σ) (hasCreds : Bool) (a : RawArgs) :
    M σ DetailedRoutine :=
  if !hasCreds then throwE .authErr else
  match parseGetRoutineDetails a with
  | .error _ => throwE .zodErr
  | .ok routineId => do
      let _ ← callRemote .getToken r.getToken
      let routine ← callRemote (.getRoutine routineId) (r.getRoutine routineId)
      let daysRes ← callRemote (.listDays routineId (some 100))
        (r.listDays routineId (some 100))
      let days :=
        sortByOrder Day.order (daysRes.filter (fun d => d.routine == routineId))
      let populatedDays ← mmap (populateDay r) days
      M.pure ⟨routine, populatedDays⟩

/-- Pure response tables for the remote store: one total response per
request shape.  Quantifying theorems over an `Oracle` expresses "for every
payload the remote store may return, in any order". -/
structure Oracle where
  daysOf : Rat → List Day
  routineOf : Rat → Routine
  slotsOf : Rat → List Slot
  entriesOf : Rat → List SlotEntry
  cfgsOf : CfgKind → Rat → List Config
  postDayRes : DayPost → Day
  postSlotRes : SlotPost → Slot
  postEntryRes : EntryPost → SlotEntry
  postCfgRes : CfgKind → CfgPost → Config
  patchCfgRes : CfgKind → Rat → JsVal → Config
  patchDayRes : Rat → DayPatch → Day

/-- The never-failing remote built from an oracle's response tables. -/
def oracleRemote (o : Oracle) : Remote Unit where
  getToken := fun s => (.ok (), s)
  listDays := fun rid _ s => (.ok (o.daysOf rid), s)
  getRoutine := fun rid s => (.ok (o.routineOf rid), s)
  listSlots := fun did _ s => (.ok (o.slotsOf did), s)
  listEntries := fun sid _ s => (.ok (o.entriesOf sid), s)
  listCfg := fun k sid s => (.ok (o.cfgsOf k sid), s)
  postDay := fun b s => (.ok (o.postDayRes b), s)
  postSlot := fun b s => (.ok (o.postSlotRes b), s)
  postEntry := fun b s => (.ok (o.postEntryRes b), s)
  postCfg := fun k b s => (.ok (o.postCfgRes k b), s)
  patchCfg := fun k i v s => (.ok (o.patchCfgRes k i v), s)
  patchDay := fun i b s => (.ok (o.patchDayRes i b), s)
  deleteDay := fun _ s => (.ok (), s)
  deleteSlot := fun _ s => (.ok (), s)

/-- Modelled from the spec: the remote wger store itself is outside this
repository (section 6 specifies its contract), so claims about stored state
are settled against this faithful collection store: list endpoints filter by
the foreign key, creates append a record with a fresh id, patches merge the
transmitted fields into the addressed record, deletes remove it (slot
deletion cascades to its entries, section 6). -/
structure Store where
  days : List Day
  slots : List Slot
  entries : List SlotEntry
  setsCfgs : List Config
  repsCfgs : List Config
  weightCfgs : List Config
  routines : List Routine
  nextId : Nat
  deriving DecidableEq, Repr

/-- The config collection of a given kind. -/
def Store.cfgs (s : Store) : CfgKind → List Config
  | .sets => s.setsCfgs
  | .reps => s.repsCfgs
  | .weight => s.weightCfgs

/-- Replace the config collection of a given kind. -/
def Store.setCfgs (s : Store) (k : CfgKind) (l : List Config) : Store :=
  match k with
  | .sets => { s with setsCfgs := l }
  | .reps => { s with repsCfgs := l }
  | .weight => { s with weightCfgs := l }

/-- Modelled from the spec: the correct remote store collaborator
(section 6 contract).  Every operation succeeds except reads and patches of
an absent id, which fail with code 404. -/
def storeRemote : Remote Store where
  getToken := fun s => (.ok (), s)
  listDays := fun rid _ s => (.ok (s.days.filter (fun d => d.routine == rid)), s)
  getRoutine := fun rid s =>
    match s.routines.find? (fun r => r.id == rid) with
    | some r => (.ok r, s)
    | none => (.error 404, s)
  listSlots := fun did _ s => (.ok (s.slots.filter (fun sl => sl.day == did)), s)
  listEntries := fun sid _ s =>
    (.ok (s.entries.filter (fun e => e.slot == sid)), s)
  listCfg := fun k sid s =>
    (.ok ((s.cfgs k).filter (fun c => c.slot_entry == sid)), s)
  postDay := fun b s =>
    let d : Day := ⟨(s.nextId : Rat), b.routine, b.name, b.description,
      b.is_rest, b.order⟩
    (.ok d, { s with days := s.days ++ [d], nextId := s.nextId + 1 })
  postSlot := fun b s =>
    let sl : Slot := ⟨(s.nextId : Rat), b.day, b.order⟩
    (.ok sl, { s with slots := s.slots ++ [sl], nextId := s.nextId + 1 })
  postEntry := fun b s =>
    let e : SlotEntry := ⟨(s.nextId : Rat), b.slot, b.exercise, b.order,
      b.comment⟩
    (.ok e, { s with entries := s.entries ++ [e], nextId := s.nextId + 1 })
  postCfg := fun k b s =>
    let c : Config := ⟨(s.nextId : Rat), b.slot_entry, b.iteration, b.value⟩
    (.ok c, { (s.setCfgs k (s.cfgs k ++ [c])) with nextId := s.nextId + 1 })
  patchCfg := fun k i v s =>
    match (s.cfgs k).find? (fun c => c.id == i) with
    | some c =>
        (.ok { c with value := v },
          s.setCfgs k ((s.cfgs k).map
            (fun c' => if c'.id == i then { c' with value := v } else c')))
    | none => (.error 404, s)
  patchDay := fun i b s =>
    match s.days.find? (fun d => d.id == i) with
    | some d =>
        let d' : Day := { d with
          description := (match b.description with
            | some v => some v
            | none => d.description),
          is_rest := (match b.is_rest with
            | some v => v
            | none => d.is_rest),
          name := (match b.name with
            | some v => v
            | none => d.name) }
        let days' := s.days.map (fun x => if x.id == i then d' else x)
        (.ok d', { s with days := days' })
    | none => (.error 404, s)
  deleteDay := fun i s => (.ok (), { s with days := s.days.filter (fun d => !(d.id == i)) })
  deleteSlot := fun i s =>
    (.ok (), { s with
      slots := s.slots.filter (fun sl => !(sl.id == i)),
      entries := s.entries.filter (fun e => !(e.slot == i)) })

/-- A remote that answers from the oracle's tables but fails exactly its
`failIdx`-th call (0-based) with the opaque code `code`; the state counts
calls made so far.  It realizes "some step of the sequence fails". -/
def failRemote (o : Oracle) (failIdx : Nat) (code : Nat) : Remote Nat where
  getToken := fun n =>
    (if n = failIdx then .error code else .ok (), n + 1)
  listDays := fun rid _ n =>
    (if n = failIdx then .error code else .ok (o.daysOf rid), n + 1)
  getRoutine := fun rid n =>
    (if n = failIdx then .error code else .ok (o.routineOf rid), n + 1)
  listSlots := fun did _ n =>
    (if n = failIdx then .error code else .ok (o.slotsOf did), n + 1)
  listEntries := fun sid _ n =>
    (if n = failIdx then .error code else .ok (o.entriesOf sid), n + 1)
  listCfg := fun k sid n =>
    (if n = failIdx then .error code else .ok (o.cfgsOf k sid), n + 1)
  postDay := fun b n =>
    (if n = failIdx then .error code else .ok (o.postDayRes b), n + 1)
  postSlot := fun b n =>
    (if n = failIdx then .error code else .ok (o.postSlotRes b), n + 1)
  postEntry := fun b n =>
    (if n = failIdx then .error code else .ok (o.postEntryRes b), n + 1)
  postCfg := fun k b n =>
    (if n = failIdx then .error code else .ok (o.postCfgRes k b), n + 1)
  patchCfg := fun k i v n =>
    (if n = failIdx then .error code else .ok (o.patchCfgRes k i v), n + 1)
  patchDay := fun i b n =>
    (if n = failIdx then .error code else .ok (o.patchDayRes i b), n + 1)
  deleteDay := fun _ n =>
    (if n = failIdx then .error code else .ok (), n + 1)
  deleteSlot := fun _ n =>
    (if n = failIdx then .error code else .ok (), n + 1)

/-- The exposed operations, used to state properties uniformly over every
tool handler. -/
inductive OpName where
  | addDay
  | updateDay
  | deleteDay
  | addExercise
  | updateExercise
  | deleteSlot
  | getRoutineDetails
  deriving DecidableEq, Repr

/-- Run the named operation, discarding its typed result (the dispatch table
of `src/server.ts` routes a tool call to the matching handler). -/
def runOp (r : Remote σ) (hasCreds : Bool) (op : OpName) (a : RawArgs) :
    M σ Unit :=
  match op with
  | .addDay => M.bind (addDayToRoutineHandler r hasCreds a) (fun _ => M.pure ())
  | .updateDay => M.bind (updateDayHandler r hasCreds a) (fun _ => M.pure ())
  | .deleteDay => M.bind (deleteDayHandler r hasCreds a) (fun _ => M.pure ())
  | .addExercise =>
      M.bind (addExerciseToRoutineHandler r hasCreds a) (fun _ => M.pure ())
  | .updateExercise =>
      M.bind (updateExerciseInRoutineHandler r hasCreds a) (fun _ => M.pure ())
  | .deleteSlot => M.bind (deleteSlotHandler r hasCreds a) (fun _ => M.pure ())
  | .getRoutineDetails =>
      M.bind (getRoutineDetailsHandler r hasCreds a) (fun _ => M.pure ())

/-- Whether the named operation's schema accepts the raw arguments. -/
def opParseOk (op : OpName) (a : RawArgs) : Bool :=
  match op with
  | .addDay => (parseAddDay a).toBool
  | .updateDay => (parseUpdateDay a).toBool
  | .deleteDay => (parseDeleteDay a).toBool
  | .addExercise => (parseAddExercise a).toBool
  | .updateExercise => (parseUpdateExercise a).toBool
  | .deleteSlot => (parseDeleteSlot a).toBool
  | .getRoutineDetails => (parseGetRoutineDetails a).toBool

@[simp]
theorem M_bind_eq (x : M σ α) (f : α → M σ β) : x >>= f = M.bind x f := rfl

theorem M_bind_apply (x : M σ α) (f : α → M σ β) (s : σ) (t : Trace) :
    M.bind x f s t =
      match x s t with
      | (.ok a, s', t') => f a s' t'
      | (.error e, s', t') => (.error e, s', t') := rfl

theorem callRemote_apply (req : Request) (m : σ → Except Nat α × σ)
    (s : σ) (t : Trace) :
    callRemote req m s t =
      match m s with
      | (.ok a, s') => (.ok a, s', t ++ [req])
      | (.error k, s') => (.error (.remoteErr k), s', t ++ [req]) := rfl

@[simp]
theorem M_pure_eq (a : α) : (Pure.pure a : M σ α) = M.pure a := rfl

/-- The schema error each operation actually surfaces on invalid input:
`addExerciseToRoutineHandler` wraps the parse failure in the repository's
`ValidationError`; every other handler calls `Schema.parse` unguarded, so
the schema library's own error escapes. -/
def opSchemaErr (op : OpName) : Err :=
  match op with
  | .addExercise => .validationErr
  | _ => .zodErr

/-- C7: for every exposed operation and every input, when credentials are
absent the operation fails with `AuthenticationError` before issuing any
remote call, leaving the remote collaborator's state unchanged. -/
theorem auth_precondition_all_ops {σ : Type} (r : Remote σ) (op : OpName)
    (a : RawArgs) (s : σ) :
    runOp r false op a s [] = (.error .authErr, s, []) := by
  cases op <;> rfl

/-- C8 (amended): for every exposed operation, an input failing its schema
constraints makes the operation fail before any remote call; the error is
the repository's `ValidationError` for `addExerciseToRoutine` and the raw
schema-library error for the six other operations. -/
theorem schema_failure_fails_fast {σ : Type} (r : Remote σ) (op : OpName)
    (a : RawArgs) (s : σ) (h : opParseOk op a = false) :
    runOp r true op a s [] = (.error (opSchemaErr op), s, []) := by
  cases op
  case addDay =>
    rcases hp : parseAddDay a with e | v
    · simp [runOp, addDayToRoutineHandler, hp, opSchemaErr, M.bind, throwE]
    · rw [opParseOk, hp] at h; simp [Except.toBool] at h
  case updateDay =>
    rcases hp : parseUpdateDay a with e | v
    · simp [runOp, updateDayHandler, hp, opSchemaErr, M.bind, throwE]
    · rw [opParseOk, hp] at h; simp [Except.toBool] at h
  case deleteDay =>
    rcases hp : parseDeleteDay a with e | v
    · simp [runOp, deleteDayHandler, hp, opSchemaErr, M.bind, throwE]
    · rw [opParseOk, hp] at h; simp [Except.toBool] at h
  case addExercise =>
    rcases hp : parseAddExercise a with e | v
    · simp [runOp, addExerciseToRoutineHandler, hp, opSchemaErr, M.bind, throwE]
    · rw [opParseOk, hp] at h; simp [Except.toBool] at h
  case updateExercise =>
    rcases hp : parseUpdateExercise a with e | v
    · simp [runOp, updateExerciseInRoutineHandler, hp, opSchemaErr, M.bind,
        throwE]
    · rw [opParseOk, hp] at h; simp [Except.toBool] at h
  case deleteSlot =>
    rcases hp : parseDeleteSlot a with e | v
    · simp [runOp, deleteSlotHandler, hp, opSchemaErr, M.bind, throwE]
    · rw [opParseOk, hp] at h; simp [Except.toBool] at h
  case getRoutineDetails =>
    rcases hp : parseGetRoutineDetails a with e | v
    · simp [runOp, getRoutineDetailsHandler, hp, opSchemaErr, M.bind, throwE]
    · rw [opParseOk, hp] at h; simp [Except.toBool] at h

/-- Raw arguments with every key `undefined`: fails every schema that has a
required field. -/
def emptyArgs : RawArgs := fun _ => .undefined

/-- An arbitrary concrete oracle used to instantiate closed statements. -/
def oracle0 : Oracle where
  daysOf := fun _ => []
  routineOf := fun rid => ⟨rid, "r", none⟩
  slotsOf := fun _ => []
  entriesOf := fun _ => []
  cfgsOf := fun _ _ => []
  postDayRes := fun b => ⟨99, b.routine, b.name, b.description, b.is_rest, b.order⟩
  postSlotRes := fun b => ⟨98, b.day, b.order⟩
  postEntryRes := fun b => ⟨97, b.slot, b.exercise, b.order, b.comment⟩
  postCfgRes := fun _ b => ⟨96, b.slot_entry, b.iteration, b.value⟩
  patchCfgRes := fun _ i v => ⟨i, 0, 1, v⟩
  patchDayRes := fun i _ => ⟨i, 0, "", none, false, 1⟩

/-- Witness that C8's amended statement has instances: `add_day_to_routine`
on all-`undefined` arguments. -/
theorem schema_failure_fails_fast_witness :
    runOp (oracleRemote oracle0) true .addDay emptyArgs () [] =
      (.error .zodErr, (), []) :=
  schema_failure_fails_fast (oracleRemote oracle0) .addDay emptyArgs () rfl

/-- Counterexample to C8 as stated: on schema-failing input,
`add_day_to_routine` throws the raw schema-library error, which is not the
repository's `ValidationError` (only `add_exercise_to_routine` wraps). -/
theorem schema_failure_not_validationError :
    opParseOk .addDay emptyArgs = false ∧
    (runOp (oracleRemote oracle0) true .addDay emptyArgs () []).1 =
      .error .zodErr ∧
    Err.zodErr ≠ Err.validationErr := by
  refine ⟨rfl, rfl, by decide⟩

/-- Full characterization of one `addDay` run against the correct store:
the result, the new store, and the issued requests. -/
theorem addDay_store_run (st : Store) (a : RawArgs) (inp : AddDayInput)
    (h : parseAddDay a = .ok inp) :
    addDayToRoutineHandler storeRemote true a st [] =
      (let n := (st.days.filter (fun d => d.routine == inp.routineId)).length
       let nameVal := match inp.description.map (fun d => strTake d 50) with
         | some s => if s.data.isEmpty then "Day " ++ natRepr (n + 1) else s
         | none => "Day " ++ natRepr (n + 1)
       let d : Day := ⟨(st.nextId : Rat), inp.routineId, nameVal,
         inp.description, inp.is_rest, (n : Rat) + 1⟩
       (.ok d, { st with days := st.days ++ [d], nextId := st.nextId + 1 },
        [.getToken, .listDays inp.routineId none,
         .postDay ⟨inp.routineId, nameVal, inp.description, inp.is_rest,
           (n : Rat) + 1, none⟩])) := by
  simp only [addDayToRoutineHandler, h]
  rfl

/-- C4: on a routine with exactly `N` existing days, `addDay` creates the
new day with `order = N + 1`, and a subsequent sequential `addDay` on the
resulting store produces `order = N + 2`: sequential appends are strictly
increasing with no gaps. -/
theorem addDay_append_order (st : Store) (a a2 : RawArgs)
    (inp inp2 : AddDayInput) (rid : Rat) (N : Nat)
    (h1 : parseAddDay a = .ok inp) (hr1 : inp.routineId = rid)
    (h2 : parseAddDay a2 = .ok inp2) (hr2 : inp2.routineId = rid)
    (hN : (st.days.filter (fun d => d.routine == rid)).length = N) :
    (∃ d1, (addDayToRoutineHandler storeRemote true a st []).1 = .ok d1 ∧
      d1.order = (N : Rat) + 1) ∧
    (∃ d2, (addDayToRoutineHandler storeRemote true a2
        (addDayToRoutineHandler storeRemote true a st []).2.1 []).1 = .ok d2 ∧
      d2.order = (N : Rat) + 2) := by
  subst hr1
  rw [addDay_store_run st a inp h1, addDay_store_run _ a2 inp2 h2]
  constructor
  · exact ⟨_, rfl, by rw [hN]⟩
  · refine ⟨_, rfl, ?_⟩
    simp only [hr2, List.filter_append]
    simp [hN]
    ring

/-- A concrete store with one routine and no days. -/
def store0 : Store :=
  ⟨[], [], [], [], [], [], [⟨1, "R", none⟩], 10⟩

/-- Concrete valid arguments for `add_day_to_routine`. -/
def addDayArgs : RawArgs := fun k =>
  if k = "routineId" then .num 1
  else if k = "description" then .str "Leg day" else .undefined

/-- Witness for C4 at a concrete store: two sequential `addDay` calls on a
routine with zero days produce orders 1 and 2. -/
theorem addDay_append_order_witness :
    (∃ d1, (addDayToRoutineHandler storeRemote true addDayArgs store0 []).1 =
        .ok d1 ∧ d1.order = (0 : Rat) + 1) ∧
    (∃ d2, (addDayToRoutineHandler storeRemote true addDayArgs
        (addDayToRoutineHandler storeRemote true addDayArgs store0 []).2.1
        []).1 = .ok d2 ∧ d2.order = (0 : Rat) + 2) :=
  addDay_append_order store0 addDayArgs addDayArgs
    ⟨1, some "Leg day", false⟩ ⟨1, some "Leg day", false⟩ 1 0
    rfl rfl rfl rfl rfl

/-- Full characterization of one `updateDay` run against the correct store
when the addressed day exists. -/
theorem updateDay_store_run (st : Store) (a : RawArgs)
    (inp : UpdateDayInput) (d : Day)
    (hp : parseUpdateDay a = .ok inp)
    (hd : st.days.find? (fun x => x.id == inp.dayId) = some d) :
    updateDayHandler storeRemote true a st [] =
      (let d' : Day := { d with
          description := (match inp.description with
            | some v => some v
            | none => d.description),
          is_rest := (match inp.is_rest with
            | some v => v
            | none => d.is_rest),
          name := (match inp.name with
            | some v => v
            | none => d.name) }
       let days' := st.days.map (fun x => if x.id == inp.dayId then d' else x)
       (.ok d',
        { st with days := days' },
        [.getToken,
         .patchDay inp.dayId ⟨inp.description, inp.is_rest, inp.name⟩])) := by
  simp [updateDayHandler, hp, storeRemote, callRemote_apply, M_bind_apply,
    M.pure, hd]

/-- C9: an `updateDay` call leaves every field it does not supply at its
prior stored value (in particular, supplying only `name` keeps the stored
`description` and `is_rest`), changes no other identity fields, and rewrites
only the addressed day in the store. -/
theorem updateDay_partial_nondestructive (st : Store) (a : RawArgs)
    (inp : UpdateDayInput) (d : Day)
    (hp : parseUpdateDay a = .ok inp)
    (hd : st.days.find? (fun x => x.id == inp.dayId) = some d) :
    ∃ d', (updateDayHandler storeRemote true a st []).1 = .ok d' ∧
      d'.description = (match inp.description with
        | some v => some v
        | none => d.description) ∧
      d'.is_rest = (match inp.is_rest with
        | some v => v
        | none => d.is_rest) ∧
      d'.name = (match inp.name with
        | some v => v
        | none => d.name) ∧
      d'.id = d.id ∧ d'.routine = d.routine ∧ d'.order = d.order ∧
      (updateDayHandler storeRemote true a st []).2.1.days =
        st.days.map (fun x => if x.id == inp.dayId then d' else x) := by
  rw [updateDay_store_run st a inp d hp hd]
  exact ⟨_, rfl, rfl, rfl, rfl, rfl, rfl, rfl, rfl⟩

/-- A store holding one day, used for concrete witnesses. -/
def store9 : Store :=
  ⟨[⟨5, 1, "Old name", some "keep this", true, 1⟩], [], [], [], [], [],
    [⟨1, "R", none⟩], 10⟩

/-- Concrete `update_day` arguments supplying only the name. -/
def updateDayArgs : RawArgs := fun k =>
  if k = "dayId" then .num 5
  else if k = "name" then .str "X" else .undefined

/-- Witness for C9: updating only the name of the stored day keeps its
description and rest flag. -/
theorem updateDay_partial_nondestructive_witness :
    ∃ d', (updateDayHandler storeRemote true updateDayArgs store9 []).1 =
        .ok d' ∧
      d'.description = some "keep this" ∧
      d'.is_rest = true ∧
      d'.name = "X" ∧
      d'.id = (5 : Rat) ∧ d'.routine = (1 : Rat) ∧ d'.order = (1 : Rat) ∧
      (updateDayHandler storeRemote true updateDayArgs store9 []).2.1.days =
        store9.days.map (fun x => if x.id == (5 : Rat) then d' else x) :=
  updateDay_partial_nondestructive store9 updateDayArgs
    ⟨5, none, none, some "X"⟩ ⟨5, 1, "Old name", some "keep this", true, 1⟩
    rfl rfl

theorem strTake_isEmpty (s : String) (n : Nat) (h : 0 < n) :
    (strTake s n).data.isEmpty = s.data.isEmpty := by
  rcases s with ⟨l⟩
  rcases l with _ | ⟨c, l⟩
  · simp [strTake]
  · rcases n with _ | n
    · omega
    · simp [strTake]

theorem strData_append (s1 s2 : String) :
    (s1 ++ s2).data = s1.data ++ s2.data := rfl

/-- A natural number below `10 ^ k` has at most `k` decimal digits. -/
theorem natDigits_length_le : ∀ (k n : Nat), n < 10 ^ k → 0 < k →
    (natDigits n).length ≤ k := by
  intro k
  induction k with
  | zero => omega
  | succ k ih =>
    intro n hn _
    rw [natDigits]
    split
    · simp
    · rename_i h
      rcases k with _ | k'
      · omega
      · have hdiv : n / 10 < 10 ^ (k' + 1) := by
          rw [Nat.div_lt_iff_lt_mul (by omega : 0 < 10)]
          calc n < 10 ^ (k' + 1 + 1) := hn
            _ = 10 ^ (k' + 1) * 10 := by ring
        have := ih (n / 10) hdiv (by omega)
        simp only [List.length_append, List.length_cons, List.length_nil]
        omega

/-- C10: the day created by `addDay` always has a populated `name`: the
first 50 characters of the supplied description when it is present and
non-empty, otherwise the string `Day N` where `N` is the computed order;
in either case the name has at most 50 characters (the hypothesis on `N`
holds for any JS array, whose length is below `2 ^ 32`). -/
theorem addDay_name_rule (st : Store) (a : RawArgs) (inp : AddDayInput)
    (N : Nat)
    (hp : parseAddDay a = .ok inp)
    (hN : (st.days.filter (fun d => d.routine == inp.routineId)).length = N)
    (hbound : N + 1 < 10 ^ 46) :
    ∃ d', (addDayToRoutineHandler storeRemote true a st []).1 = .ok d' ∧
      d'.name = (match inp.description with
        | some ds =>
            if ds.data.isEmpty then "Day " ++ natRepr (N + 1)
            else strTake ds 50
        | none => "Day " ++ natRepr (N + 1)) ∧
      d'.name.data.length ≤ 50 := by
  rw [addDay_store_run st a inp hp]
  have hday : ("Day " ++ natRepr (N + 1)).data.length ≤ 50 := by
    rw [strData_append, List.length_append]
    have h46 : (natDigits (N + 1)).length ≤ 46 :=
      natDigits_length_le 46 (N + 1) hbound (by omega)
    have h4 : ("Day " : String).data.length = 4 := rfl
    have : (natRepr (N + 1)).data.length = (natDigits (N + 1)).length := rfl
    omega
  refine ⟨_, rfl, ?_, ?_⟩
  · rcases hdesc : inp.description with _ | ds
    · simp [hN]
    · simp only [Option.map]
      rw [strTake_isEmpty ds 50 (by omega)]
      rcases he : ds.data.isEmpty
      · simp [he, hN]
      · simp [he, hN]
  · rcases hdesc : inp.description with _ | ds
    · simpa [hN] using hday
    · simp only [Option.map]
      rw [strTake_isEmpty ds 50 (by omega)]
      rcases he : ds.data.isEmpty
      · simp only [Bool.false_eq_true, if_false]
        have : (strTake ds 50).data.length ≤ 50 := by
          simp [strTake, List.length_take]
        simpa using this
      · simpa [he, hN] using hday

/-- Witness for C10 on a concrete store and arguments: the created day is
named from the description, truncated, and is at most 50 characters. -/
theorem addDay_name_rule_witness :
    ∃ d', (addDayToRoutineHandler storeRemote true addDayArgs store0 []).1 =
        .ok d' ∧
      d'.name = (match (some "Leg day" : Option String) with
        | some ds =>
            if ds.data.isEmpty then "Day " ++ natRepr (0 + 1)
            else strTake ds 50
        | none => "Day " ++ natRepr (0 + 1)) ∧
      d'.name.data.length ≤ 50 :=
  addDay_name_rule store0 addDayArgs ⟨1, some "Leg day", false⟩ 0
    rfl rfl (by norm_num)

/-- Characterization of one metric upsert against arbitrary oracle
responses: non-empty fetch result patches the first element's value and
reports updated; empty result creates `{slot_entry, iteration: 1, value}`
and reports created. -/
theorem upsertCfg_oracle (o : Oracle) (k : CfgKind) (sid : Rat) (v : JsVal)
    (t : Trace) :
    upsertCfg (oracleRemote o) k sid v () t =
      (match o.cfgsOf k sid with
       | [] => (.ok (cfgLabel k ++ " (created)"), (),
           t ++ [.listCfg k sid, .postCfg k ⟨sid, 1, v⟩])
       | c :: _ => (.ok (cfgLabel k ++ " (updated)"), (),
           t ++ [.listCfg k sid, .patchCfg k c.id v])) := by
  rcases h : o.cfgsOf k sid with _ | ⟨c, cs⟩ <;>
    simp [upsertCfg, oracleRemote, callRemote_apply, M_bind_apply, M.pure, h]

@[simp]
theorem oracleRemote_getToken (o : Oracle) (s : Unit) :
    (oracleRemote o).getToken s = (.ok (), s) := rfl

/-- C2: for every supplied metric, `updateExerciseInRoutine` patches the
value of the first element of the fetched config list when it is non-empty
(reporting updated) and otherwise creates `{slot_entry, iteration: 1,
value}` (reporting created); weight is transmitted as its string
representation, sets and reps as numbers. -/
theorem updateExercise_upsert_per_metric (o : Oracle) (a : RawArgs)
    (inp : UpdateExerciseInput)
    (hp : parseUpdateExercise a = .ok inp) :
    updateExerciseInRoutineHandler (oracleRemote o) true a () [] =
      (.ok ((match inp.sets with
          | none => []
          | some _ =>
            match o.cfgsOf .sets inp.slotEntryId with
            | [] => ["sets (created)"]
            | _ :: _ => ["sets (updated)"]) ++
        (match inp.reps with
          | none => []
          | some _ =>
            match o.cfgsOf .reps inp.slotEntryId with
            | [] => ["reps (created)"]
            | _ :: _ => ["reps (updated)"]) ++
        (match inp.weight with
          | none => []
          | some _ =>
            match o.cfgsOf .weight inp.slotEntryId with
            | [] => ["weight (created)"]
            | _ :: _ => ["weight (updated)"])),
       (),
       .getToken ::
        ((match inp.sets with
          | none => []
          | some v =>
            match o.cfgsOf .sets inp.slotEntryId with
            | [] => [.listCfg .sets inp.slotEntryId,
                .postCfg .sets ⟨inp.slotEntryId, 1, .num v⟩]
            | c :: _ => [.listCfg .sets inp.slotEntryId,
                .patchCfg .sets c.id (.num v)]) ++
         (match inp.reps with
          | none => []
          | some v =>
            match o.cfgsOf .reps inp.slotEntryId with
            | [] => [.listCfg .reps inp.slotEntryId,
                .postCfg .reps ⟨inp.slotEntryId, 1, .num v⟩]
            | c :: _ => [.listCfg .reps inp.slotEntryId,
                .patchCfg .reps c.id (.num v)]) ++
         (match inp.weight with
          | none => []
          | some w =>
            match o.cfgsOf .weight inp.slotEntryId with
            | [] => [.listCfg .weight inp.slotEntryId,
                .postCfg .weight ⟨inp.slotEntryId, 1, .str (numToString w)⟩]
            | c :: _ => [.listCfg .weight inp.slotEntryId,
                .patchCfg .weight c.id (.str (numToString w))]))) := by
  simp only [updateExerciseInRoutineHandler, hp]
  rcases hs : inp.sets with _ | sv <;>
    rcases hr2 : inp.reps with _ | rv <;>
      rcases hw : inp.weight with _ | wv <;>
        rcases hcs : o.cfgsOf .sets inp.slotEntryId with _ | ⟨c1, l1⟩ <;>
          rcases hcr : o.cfgsOf .reps inp.slotEntryId with _ | ⟨c2, l2⟩ <;>
            rcases hcw : o.cfgsOf .weight inp.slotEntryId with _ | ⟨c3, l3⟩ <;>
              (simp [upsertCfg_oracle, callRemote_apply,
                M_bind_apply, M.pure, hcs, hcr, hcw] <;>
                (repeat' apply And.intro) <;> rfl)

/-- An oracle holding one existing sets config for slot entry 7 and nothing
else. -/
def oracle2 : Oracle :=
  { oracle0 with cfgsOf := fun k _ =>
      match k with
      | .sets => [⟨21, 7, 1, .num 5⟩]
      | _ => [] }

/-- Concrete `update_exercise_in_routine` arguments supplying all three
metrics. -/
def updateExerciseArgs : RawArgs := fun k =>
  if k = "slotEntryId" then .num 7
  else if k = "sets" then .num 4
  else if k = "reps" then .num 12
  else if k = "weight" then .num 50 else .undefined

/-- Witness for C2: with an existing sets config and no reps/weight config,
the run reports sets updated and reps/weight created, patching the first
fetched sets config and creating the others, weight as a string. -/
theorem updateExercise_upsert_witness :
    updateExerciseInRoutineHandler (oracleRemote oracle2) true
        updateExerciseArgs () [] =
      (.ok ["sets (updated)", "reps (created)", "weight (created)"], (),
       [.getToken, .listCfg .sets 7, .patchCfg .sets 21 (.num 4),
        .listCfg .reps 7, .postCfg .reps ⟨7, 1, .num 12⟩,
        .listCfg .weight 7, .postCfg .weight ⟨7, 1, .str (numToString 50)⟩]) :=
  updateExercise_upsert_per_metric oracle2 updateExerciseArgs
    ⟨7, some 4, some 12, some 50⟩ rfl

@[simp]
theorem cfgs_setCfgs_same (s : Store) (k : CfgKind) (l : List Config) :
    (s.setCfgs k l).cfgs k = l := by
  cases k <;> rfl

@[simp]
theorem cfgs_set_nextId (s : Store) (k : CfgKind) (m : Nat) :
    ({ s with nextId := m }).cfgs k = s.cfgs k := by
  cases k <;> rfl

/-- One upsert against the correct store when no config for the pair
exists: a creation. -/
theorem upsertCfg_store_create (st : Store) (k : CfgKind) (sid : Rat)
    (v : JsVal)
    (h : (st.cfgs k).filter (fun c => c.slot_entry == sid) = []) :
    upsertCfg storeRemote k sid v st [] =
      (.ok (cfgLabel k ++ " (created)"),
       { (st.setCfgs k (st.cfgs k ++ [⟨(st.nextId : Rat), sid, 1, v⟩])) with
          nextId := st.nextId + 1 },
       [.listCfg k sid, .postCfg k ⟨sid, 1, v⟩]) := by
  simp [upsertCfg, storeRemote, callRemote_apply, M_bind_apply, M.pure, h]

/-- One upsert against the correct store when configs for the pair exist:
a partial update of the first fetched element's value. -/
theorem upsertCfg_store_update (st : Store) (k : CfgKind) (sid : Rat)
    (v : JsVal) (c : Config) (cs : List Config)
    (h : (st.cfgs k).filter (fun x => x.slot_entry == sid) = c :: cs) :
    upsertCfg storeRemote k sid v st [] =
      (.ok (cfgLabel k ++ " (updated)"),
       st.setCfgs k ((st.cfgs k).map
         (fun x => if x.id == c.id then { x with value := v } else x)),
       [.listCfg k sid, .patchCfg k c.id v]) := by
  have hc : c ∈ st.cfgs k := by
    have : c ∈ (st.cfgs k).filter (fun x => x.slot_entry == sid) := by
      rw [h]; exact List.mem_cons_self c cs
    exact List.mem_of_mem_filter this
  rcases hf : (st.cfgs k).find? (fun x => x.id == c.id) with _ | x
  · exfalso
    have := List.find?_eq_none.mp hf c hc
    simp at this
  · simp [upsertCfg, storeRemote, callRemote_apply, M_bind_apply, M.pure,
      h, hf]

/-- A commutation fact: patching by id and filtering by `slot_entry`
commute, because the patch changes only `value`. -/
theorem filter_patch_comm (l : List Config) (i : Rat) (v : JsVal)
    (sid : Rat) :
    (l.map (fun x => if x.id == i then { x with value := v } else x)).filter
        (fun x => x.slot_entry == sid) =
      (l.filter (fun x => x.slot_entry == sid)).map
        (fun x => if x.id == i then { x with value := v } else x) := by
  induction l with
  | nil => rfl
  | cons a l ih =>
    have hpres : ((if (a.id == i) = true then { a with value := v } else a) :
        Config).slot_entry = a.slot_entry := by
      split <;> rfl
    simp only [List.map_cons, List.filter_cons]
    rw [hpres]
    by_cases hse : (a.slot_entry == sid) = true
    · rw [if_pos hse, if_pos hse, List.map_cons, ih]
    · rw [if_neg hse, if_neg hse, ih]

/-- A sequence of upsert calls for one `(slotEntryId, kind)` pair against
the correct store, collecting the reports (sequential calls to the
per-metric block of `updateExerciseInRoutineHandler`). -/
def applyUpserts (k : CfgKind) (sid : Rat) (vs : List JsVal) (st : Store) :
    List String × Store :=
  match vs with
  | [] => ([], st)
  | v :: rest =>
    match upsertCfg storeRemote k sid v st [] with
    | (.ok rep, st', _) =>
        let p := applyUpserts k sid rest st'
        (rep :: p.1, p.2)
    | (.error _, st', _) => ([], st')

/-- Once exactly one config exists for the pair, every further upsert
reports updated and rewrites that single config's value in place. -/
theorem applyUpserts_updated (k : CfgKind) (sid : Rat) :
    ∀ (rest : List JsVal) (st : Store) (c : Config),
    (st.cfgs k).filter (fun x => x.slot_entry == sid) = [c] →
    (applyUpserts k sid rest st).1 =
      rest.map (fun _ => cfgLabel k ++ " (updated)") ∧
    (((applyUpserts k sid rest st).2.cfgs k).filter
        (fun x => x.slot_entry == sid)).map Config.value =
      [rest.getLastD c.value] := by
  intro rest
  induction rest with
  | nil =>
    intro st c hc
    refine ⟨rfl, ?_⟩
    simp [applyUpserts, hc]
  | cons v rest ih =>
    intro st c hc
    rw [applyUpserts, upsertCfg_store_update st k sid v c [] hc]
    have hfilter :
        ((st.setCfgs k ((st.cfgs k).map
            (fun x => if x.id == c.id then { x with value := v } else x))).cfgs
              k).filter (fun x => x.slot_entry == sid) =
          [{ c with value := v }] := by
      rw [cfgs_setCfgs_same, filter_patch_comm, hc]
      simp
    have := ih _ { c with value := v } hfilter
    refine ⟨?_, ?_⟩
    · simp only [List.map_cons]
      exact congrArg _ this.1
    · rw [List.getLastD_cons]
      exact this.2

/-- C5: starting from a store with no config of kind `k` for the slot
entry, a sequence of upsert calls reports created on the first call and
updated on every subsequent one, and leaves exactly one stored config for
the pair, holding the last value written. -/
theorem config_upsert_idempotent (k : CfgKind) (sid : Rat) (v : JsVal)
    (rest : List JsVal) (st : Store)
    (h0 : (st.cfgs k).filter (fun x => x.slot_entry == sid) = []) :
    (applyUpserts k sid (v :: rest) st).1 =
      (cfgLabel k ++ " (created)") ::
        rest.map (fun _ => cfgLabel k ++ " (updated)") ∧
    (((applyUpserts k sid (v :: rest) st).2.cfgs k).filter
        (fun x => x.slot_entry == sid)).map Config.value =
      [rest.getLastD v] := by
  rw [applyUpserts, upsertCfg_store_create st k sid v h0]
  have hfilter :
      (({ (st.setCfgs k
          (st.cfgs k ++ [(⟨(st.nextId : Rat), sid, 1, v⟩ : Config)])) with
            nextId := st.nextId + 1 }).cfgs k).filter
        (fun x => x.slot_entry == sid) =
      [(⟨(st.nextId : Rat), sid, 1, v⟩ : Config)] := by
    rw [cfgs_set_nextId, cfgs_setCfgs_same, List.filter_append, h0]
    simp
  have hrest := applyUpserts_updated k sid rest _ _ hfilter
  constructor
  · exact congrArg _ hrest.1
  · exact hrest.2

/-- Witness for C5: two upserts of the sets metric for slot entry 7 on an
empty store report created then updated and store only the last value. -/
theorem config_upsert_idempotent_witness :
    (applyUpserts .sets 7 [.num 3, .num 4] store0).1 =
      ["sets (created)", "sets (updated)"] ∧
    (((applyUpserts .sets 7 [.num 3, .num 4] store0).2.cfgs .sets).filter
        (fun x => x.slot_entry == 7)).map Config.value = [.num 4] :=
  config_upsert_idempotent .sets 7 (.num 3) [.num 4] store0 rfl

@[simp]
theorem oracleRemote_listDays (o : Oracle) (rid : Rat) (lim : Option Rat)
    (s : Unit) : (oracleRemote o).listDays rid lim s = (.ok (o.daysOf rid), s) :=
  rfl

@[simp]
theorem oracleRemote_postDay (o : Oracle) (b : DayPost) (s : Unit) :
    (oracleRemote o).postDay b s = (.ok (o.postDayRes b), s) := rfl

@[simp]
theorem oracleRemote_postSlot (o : Oracle) (b : SlotPost) (s : Unit) :
    (oracleRemote o).postSlot b s = (.ok (o.postSlotRes b), s) := rfl

@[simp]
theorem oracleRemote_postEntry (o : Oracle) (b : EntryPost) (s : Unit) :
    (oracleRemote o).postEntry b s = (.ok (o.postEntryRes b), s) := rfl

@[simp]
theorem oracleRemote_postCfg (o : Oracle) (k : CfgKind) (b : CfgPost)
    (s : Unit) : (oracleRemote o).postCfg k b s = (.ok (o.postCfgRes k b), s) :=
  rfl

/-- C1 (amended): `addExerciseToRoutine` fetches the day collection and
keeps only the days whose routine equals `routineId`; when a kept day's name
equals the desired name (the supplied `dayName` when it is present and
non-empty, otherwise "Workout Day"), the first such day is used and no
create or update is issued to the day collection; otherwise exactly one new
day is created with that name, `is_rest = false` and
`order = kept.length + 1`. -/
theorem addExercise_day_resolution (o : Oracle) (a : RawArgs)
    (inp : AddExerciseInput) (hp : parseAddExercise a = .ok inp) :
    (match ((o.daysOf inp.routineId).filter
        (fun d => d.routine == inp.routineId)).find?
        (fun d => d.name == (match inp.dayName with
          | some s => if s.data.isEmpty then "Workout Day" else s
          | none => "Workout Day")) with
     | some d =>
        ((addExerciseToRoutineHandler (oracleRemote o) true a () []).2.2.filter
          (fun q => match q with
            | Request.postDay _ => true
            | Request.patchDay _ _ => true
            | _ => false)) = [] ∧
        Request.postSlot ⟨d.id, 1⟩ ∈
          (addExerciseToRoutineHandler (oracleRemote o) true a () []).2.2
     | none =>
        ((addExerciseToRoutineHandler (oracleRemote o) true a () []).2.2.filter
          (fun q => match q with
            | Request.postDay _ => true
            | Request.patchDay _ _ => true
            | _ => false)) =
          [Request.postDay ⟨inp.routineId,
            (match inp.dayName with
              | some s => if s.data.isEmpty then "Workout Day" else s
              | none => "Workout Day"), none, false,
            (((o.daysOf inp.routineId).filter
              (fun d => d.routine == inp.routineId)).length : Rat) + 1,
            some "custom"⟩]) := by
  rcases hd : inp.dayName with _ | s
  · rcases hw : inp.weight with _ | w <;>
      (simp [addExerciseToRoutineHandler, hp, hd, hw, callRemote_apply,
        M_bind_apply, M.pure]
       split <;> rename_i heq <;>
         simp [heq, callRemote_apply, M_bind_apply, M.pure])
  · by_cases he : s.data.isEmpty = true <;>
      rcases hw : inp.weight with _ | w <;>
        (simp [addExerciseToRoutineHandler, hp, hd, he, hw, callRemote_apply,
          M_bind_apply, M.pure]
         split <;> rename_i heq <;>
           simp [heq, callRemote_apply, M_bind_apply, M.pure])

/-- An oracle whose day collection for routine 1 holds a single day whose
name is the empty string. -/
def oracleC1 : Oracle :=
  { oracle0 with daysOf := fun _ => [⟨7, 1, "", none, true, 1⟩] }

/-- Concrete `add_exercise_to_routine` arguments supplying the empty string
as `dayName`. -/
def addExerciseArgsEmptyName : RawArgs := fun k =>
  if k = "routineId" then .num 1
  else if k = "exerciseId" then .num 2
  else if k = "sets" then .num 3
  else if k = "reps" then .num 4
  else if k = "dayName" then .str "" else .undefined

/-- Counterexample to C1 as stated: `dayName` is supplied (the empty
string) and a kept day carries exactly that name, yet the handler still
issues a create to the day collection, because `dayName || 'Workout Day'`
treats the present-but-empty name as absent. -/
theorem addExercise_dayName_counterexample :
    addExerciseArgsEmptyName "dayName" = .str "" ∧
    ((oracleC1.daysOf 1).filter (fun d => d.routine == (1 : Rat))).map
      Day.name = [""] ∧
    ((addExerciseToRoutineHandler (oracleRemote oracleC1) true
        addExerciseArgsEmptyName () []).2.2.filter
      (fun q => match q with
        | Request.postDay _ => true
        | Request.patchDay _ _ => true
        | _ => false)) ≠ [] := by
  refine ⟨rfl, rfl, ?_⟩
  decide

/-- Witness instantiating the amended C1 statement at the concrete oracle
and arguments of the counterexample. -/
theorem addExercise_day_resolution_witness :
    (match ((oracleC1.daysOf (1 : Rat)).filter
        (fun d => d.routine == (1 : Rat))).find?
        (fun d => d.name == (match (some "" : Option String) with
          | some s => if s.data.isEmpty then "Workout Day" else s
          | none => "Workout Day")) with
     | some d =>
        ((addExerciseToRoutineHandler (oracleRemote oracleC1) true
            addExerciseArgsEmptyName () []).2.2.filter
          (fun q => match q with
            | Request.postDay _ => true
            | Request.patchDay _ _ => true
            | _ => false)) = [] ∧
        Request.postSlot ⟨d.id, 1⟩ ∈
          (addExerciseToRoutineHandler (oracleRemote oracleC1) true
            addExerciseArgsEmptyName () []).2.2
     | none =>
        ((addExerciseToRoutineHandler (oracleRemote oracleC1) true
            addExerciseArgsEmptyName () []).2.2.filter
          (fun q => match q with
            | Request.postDay _ => true
            | Request.patchDay _ _ => true
            | _ => false)) =
          [Request.postDay ⟨(1 : Rat),
            (match (some "" : Option String) with
              | some s => if s.data.isEmpty then "Workout Day" else s
              | none => "Workout Day"), none, false,
            (((oracleC1.daysOf (1 : Rat)).filter
              (fun d => d.routine == (1 : Rat))).length : Rat) + 1,
            some "custom"⟩]) :=
  addExercise_day_resolution oracleC1 addExerciseArgsEmptyName
    ⟨1, 2, 3, 4, none, some "", none⟩ rfl

@[simp]
theorem oracleRemote_getRoutine (o : Oracle) (rid : Rat) (s : Unit) :
    (oracleRemote o).getRoutine rid s = (.ok (o.routineOf rid), s) := rfl

@[simp]
theorem oracleRemote_listSlots (o : Oracle) (did : Rat) (lim : Option Rat)
    (s : Unit) :
    (oracleRemote o).listSlots did lim s = (.ok (o.slotsOf did), s) := rfl

@[simp]
theorem oracleRemote_listEntries (o : Oracle) (sid : Rat) (lim : Option Rat)
    (s : Unit) :
    (oracleRemote o).listEntries sid lim s = (.ok (o.entriesOf sid), s) := rfl

@[simp]
theorem oracleRemote_listCfg (o : Oracle) (k : CfgKind) (sid : Rat)
    (s : Unit) :
    (oracleRemote o).listCfg k sid s = (.ok (o.cfgsOf k sid), s) := rfl

/-- Mapping a computation that always succeeds with a pure value and a pure
trace over a list succeeds with the mapped values and concatenated traces. -/
theorem mmap_ok (f : α → M Unit β) (g : α → β) (trf : α → Trace)
    (h : ∀ x t, f x () t = (.ok (g x), (), t ++ trf x)) :
    ∀ (l : List α) (t : Trace),
      mmap f l () t = (.ok (l.map g), (), t ++ l.flatMap trf) := by
  intro l
  induction l with
  | nil => intro t; simp [mmap, M.pure]
  | cons x xs ih =>
    intro t
    rw [mmap]
    simp only [M_bind_eq]
    rw [M_bind_apply, h x t]
    simp [M_bind_apply, ih, M.pure, List.append_assoc]

/-- The populated entry `get_routine_details` produces for one slot entry. -/
def entryView (o : Oracle) (e : SlotEntry) : PopEntry :=
  ⟨e, (o.cfgsOf .sets e.id).head?.map Config.value,
      (o.cfgsOf .reps e.id).head?.map Config.value,
      (o.cfgsOf .weight e.id).head?.map Config.value⟩

/-- The populated slot `get_routine_details` produces for one slot. -/
def slotView (o : Oracle) (sl : Slot) : PopSlot :=
  ⟨sl, (sortByOrder SlotEntry.order (o.entriesOf sl.id)).map (entryView o)⟩

/-- The populated day `get_routine_details` produces for one day. -/
def dayView (o : Oracle) (d : Day) : PopDay :=
  ⟨d, (sortByOrder Slot.order (o.slotsOf d.id)).map (slotView o)⟩

/-- The whole tree `get_routine_details` produces. -/
def treeView (o : Oracle) (rid : Rat) : DetailedRoutine :=
  ⟨o.routineOf rid,
   (sortByOrder Day.order ((o.daysOf rid).filter
     (fun d => d.routine == rid))).map (dayView o)⟩

/-- Requests issued while populating one entry. -/
def entryTrace (e : SlotEntry) : Trace :=
  [.listCfg .sets e.id, .listCfg .reps e.id, .listCfg .weight e.id]

/-- Requests issued while populating one slot. -/
def slotTrace (o : Oracle) (sl : Slot) : Trace :=
  .listEntries sl.id (some 100) ::
    (sortByOrder SlotEntry.order (o.entriesOf sl.id)).flatMap entryTrace

/-- Requests issued while populating one day. -/
def dayTrace (o : Oracle) (d : Day) : Trace :=
  .listSlots d.id (some 100) ::
    (sortByOrder Slot.order (o.slotsOf d.id)).flatMap (slotTrace o)

theorem populateEntry_oracle (o : Oracle) (e : SlotEntry) (t : Trace) :
    populateEntry (oracleRemote o) e () t =
      (.ok (entryView o e), (), t ++ entryTrace e) := by
  simp [populateEntry, callRemote_apply, M_bind_apply, M.pure, entryView,
    entryTrace]

theorem populateSlot_oracle (o : Oracle) (sl : Slot) (t : Trace) :
    populateSlot (oracleRemote o) sl () t =
      (.ok (slotView o sl), (), t ++ slotTrace o sl) := by
  have hm := mmap_ok (populateEntry (oracleRemote o)) (entryView o)
    entryTrace (fun e t2 => populateEntry_oracle o e t2)
  simp [populateSlot, callRemote_apply, M_bind_apply, M.pure, hm, slotView,
    slotTrace]

theorem populateDay_oracle (o : Oracle) (d : Day) (t : Trace) :
    populateDay (oracleRemote o) d () t =
      (.ok (dayView o d), (), t ++ dayTrace o d) := by
  have hm := mmap_ok (populateSlot (oracleRemote o)) (slotView o)
    (slotTrace o) (fun sl t2 => populateSlot_oracle o sl t2)
  simp [populateDay, callRemote_apply, M_bind_apply, M.pure, hm, dayView,
    dayTrace]

/-- Full characterization of a `get_routine_details` run against arbitrary
oracle responses. -/
theorem getRoutineDetails_oracle_run (o : Oracle) (a : RawArgs) (rid : Rat)
    (hp : parseGetRoutineDetails a = .ok rid) :
    getRoutineDetailsHandler (oracleRemote o) true a () [] =
      (.ok (treeView o rid), (),
       [.getToken, .getRoutine rid, .listDays rid (some 100)] ++
         (sortByOrder Day.order ((o.daysOf rid).filter
           (fun d => d.routine == rid))).flatMap (dayTrace o)) := by
  have hm := mmap_ok (populateDay (oracleRemote o)) (dayView o)
    (dayTrace o) (fun d t2 => populateDay_oracle o d t2)
  simp [getRoutineDetailsHandler, hp, callRemote_apply, M_bind_apply,
    M.pure, hm, treeView]

/-- Sortedness by a key transfers through a map that preserves the key. -/
theorem sorted_map_of_key (key : α → Rat) (key2 : β → Rat) (f : α → β)
    (hkey : ∀ x, key2 (f x) = key x) (l : List α)
    (hl : List.Sorted (byOrder key) l) :
    List.Sorted (byOrder key2) (l.map f) := by
  refine List.Pairwise.map f ?_ hl
  intro x y hxy
  simp only [byOrder, hkey]
  exact hxy

/-- C3: the tree `get_routine_details` returns has its days restricted to
the requested routine and sorted ascending by `order` (and exactly the kept
days, as a permutation of the filtered response), each day's slots sorted
ascending by `order`, and each slot's entries sorted ascending by `order`,
whatever order the remote store returned the elements in. -/
theorem tree_sorted (o : Oracle) (a : RawArgs) (rid : Rat)
    (hp : parseGetRoutineDetails a = .ok rid) :
    ∃ tree,
      (getRoutineDetailsHandler (oracleRemote o) true a () []).1 =
        .ok tree ∧
      List.Sorted (byOrder (fun pd => pd.day.order)) tree.days ∧
      (∀ pd ∈ tree.days, pd.day.routine = rid) ∧
      List.Perm (tree.days.map PopDay.day)
        ((o.daysOf rid).filter (fun d => d.routine == rid)) ∧
      (∀ pd ∈ tree.days,
        List.Sorted (byOrder (fun ps => ps.slot.order)) pd.slots) ∧
      (∀ pd ∈ tree.days, ∀ ps ∈ pd.slots,
        List.Sorted (byOrder (fun pe => pe.entry.order)) ps.entries) := by
  rw [getRoutineDetails_oracle_run o a rid hp]
  refine ⟨treeView o rid, rfl, ?_, ?_, ?_, ?_, ?_⟩
  · simp only [treeView]
    exact sorted_map_of_key Day.order _ (dayView o) (fun d => rfl) _
      (List.sorted_insertionSort _ _)
  · simp only [treeView]
    intro pd hpd
    obtain ⟨d, hd, rfl⟩ := List.mem_map.mp hpd
    simp only [sortByOrder, List.mem_insertionSort] at hd
    have := List.of_mem_filter hd
    simpa [dayView] using this
  · simp only [treeView]
    rw [List.map_map]
    have hcomp : (PopDay.day ∘ dayView o) = fun d => d := rfl
    rw [hcomp, List.map_id']
    exact List.perm_insertionSort _ _
  · simp only [treeView]
    intro pd hpd
    obtain ⟨d, hd, rfl⟩ := List.mem_map.mp hpd
    simp only [dayView]
    exact sorted_map_of_key Slot.order _ (slotView o) (fun sl => rfl) _
      (List.sorted_insertionSort _ _)
  · simp only [treeView]
    intro pd hpd ps hps
    obtain ⟨d, hd, rfl⟩ := List.mem_map.mp hpd
    simp only [dayView] at hps
    obtain ⟨sl, hsl, rfl⟩ := List.mem_map.mp hps
    simp only [slotView]
    exact sorted_map_of_key SlotEntry.order _ (entryView o) (fun e => rfl) _
      (List.sorted_insertionSort _ _)

/-- An oracle returning the days in the order ids `[3, 1, 2]` with `order`
values `[3, 1, 2]` (the spec's sort-stability example). -/
def oracle3 : Oracle :=
  { oracle0 with daysOf := fun _ =>
      [⟨3, 1, "c", none, false, 3⟩, ⟨1, 1, "a", none, false, 1⟩,
       ⟨2, 1, "b", none, false, 2⟩] }

/-- Concrete `get_routine_details` arguments. -/
def detailsArgs : RawArgs := fun k =>
  if k = "routineId" then .num 1 else .undefined

/-- Witness for C3 at the sort-stability example oracle. -/
theorem tree_sorted_witness :
    ∃ tree,
      (getRoutineDetailsHandler (oracleRemote oracle3) true detailsArgs
          () []).1 = .ok tree ∧
      List.Sorted (byOrder (fun pd => pd.day.order)) tree.days ∧
      (∀ pd ∈ tree.days, pd.day.routine = (1 : Rat)) ∧
      List.Perm (tree.days.map PopDay.day)
        ((oracle3.daysOf 1).filter (fun d => d.routine == (1 : Rat))) ∧
      (∀ pd ∈ tree.days,
        List.Sorted (byOrder (fun ps => ps.slot.order)) pd.slots) ∧
      (∀ pd ∈ tree.days, ∀ ps ∈ pd.slots,
        List.Sorted (byOrder (fun pe => pe.entry.order)) ps.entries) :=
  tree_sorted oracle3 detailsArgs 1 rfl

/-- The oracle run of `add_exercise_to_routine` issues at most 8 requests. -/
theorem addExercise_oracle_trace_len (o : Oracle) (a : RawArgs)
    (inp : AddExerciseInput) (hp : parseAddExercise a = .ok inp) :
    (addExerciseToRoutineHandler (oracleRemote o) true a () []).2.2.length ≤
      8 := by
  rcases hd : inp.dayName with _ | s
  · rcases hw : inp.weight with _ | w <;>
      (simp [addExerciseToRoutineHandler, hp, hd, hw, callRemote_apply,
        M_bind_apply, M.pure]
       rcases hfq : List.find? (fun x => decide (x.routine = inp.routineId) &&
           decide (x.name = "Workout Day")) (o.daysOf inp.routineId)
           with _ | d <;>
         simp [hfq, callRemote_apply, M_bind_apply, M.pure])
  · by_cases he : s.data.isEmpty = true
    · rcases hw : inp.weight with _ | w <;>
        (simp [addExerciseToRoutineHandler, hp, hd, he, hw, callRemote_apply,
          M_bind_apply, M.pure]
         rcases hfq : List.find? (fun x => decide (x.routine = inp.routineId) &&
             decide (x.name = "Workout Day")) (o.daysOf inp.routineId)
             with _ | d <;>
           simp [hfq, callRemote_apply, M_bind_apply, M.pure])
    · rcases hw : inp.weight with _ | w <;>
        (simp [addExerciseToRoutineHandler, hp, hd, he, hw, callRemote_apply,
          M_bind_apply, M.pure]
         rcases hfq : List.find? (fun x => decide (x.routine = inp.routineId) &&
             decide (x.name = s)) (o.daysOf inp.routineId) with _ | d <;>
           simp [hfq, callRemote_apply, M_bind_apply, M.pure])

/-- `add_exercise_to_routine` never issues a delete request. -/
theorem addExercise_no_deletes (o : Oracle) (a : RawArgs)
    (inp : AddExerciseInput) (hp : parseAddExercise a = .ok inp) :
    ∀ q ∈ (addExerciseToRoutineHandler (oracleRemote o) true a () []).2.2,
      (match q with
       | Request.deleteDay _ => False
       | Request.deleteSlot _ => False
       | _ => True) := by
  rcases hd : inp.dayName with _ | s
  · rcases hw : inp.weight with _ | w <;>
      (simp [addExerciseToRoutineHandler, hp, hd, hw, callRemote_apply,
        M_bind_apply, M.pure]
       rcases hfq : List.find? (fun x => decide (x.routine = inp.routineId) &&
           decide (x.name = "Workout Day")) (o.daysOf inp.routineId)
           with _ | d <;>
         simp [hfq, callRemote_apply, M_bind_apply, M.pure])
  · by_cases he : s.data.isEmpty = true
    · rcases hw : inp.weight with _ | w <;>
        (simp [addExerciseToRoutineHandler, hp, hd, he, hw, callRemote_apply,
          M_bind_apply, M.pure]
         rcases hfq : List.find? (fun x => decide (x.routine = inp.routineId) &&
             decide (x.name = "Workout Day")) (o.daysOf inp.routineId)
             with _ | d <;>
           simp [hfq, callRemote_apply, M_bind_apply, M.pure])
    · rcases hw : inp.weight with _ | w <;>
        (simp [addExerciseToRoutineHandler, hp, hd, he, hw, callRemote_apply,
          M_bind_apply, M.pure]
         rcases hfq : List.find? (fun x => decide (x.routine = inp.routineId) &&
             decide (x.name = s)) (o.daysOf inp.routineId) with _ | d <;>
           simp [hfq, callRemote_apply, M_bind_apply, M.pure])

set_option maxHeartbeats 2000000 in
/-- When the remote collaborator fails at the `failIdx`-th call, the run
ends right there: the result is that very failure and the trace is the
initial segment of the successful run's trace through the failing request. -/
theorem addExercise_abort_truncation (o : Oracle) (a : RawArgs)
    (inp : AddExerciseInput) (hp : parseAddExercise a = .ok inp)
    (failIdx code : Nat)
    (hlt : failIdx <
      (addExerciseToRoutineHandler (oracleRemote o) true a () []).2.2.length) :
    (addExerciseToRoutineHandler (failRemote o failIdx code) true a 0 []).1 =
      .error (.remoteErr code) ∧
    (addExerciseToRoutineHandler (failRemote o failIdx code) true a 0
        []).2.2 =
      (addExerciseToRoutineHandler (oracleRemote o) true a () []).2.2.take
        (failIdx + 1) := by
  have hl8 := addExercise_oracle_trace_len o a inp hp
  have hcase : failIdx = 0 ∨ failIdx = 1 ∨ failIdx = 2 ∨ failIdx = 3 ∨
      failIdx = 4 ∨ failIdx = 5 ∨ failIdx = 6 ∨ failIdx = 7 ∨
      8 ≤ failIdx := by omega
  rcases hd : inp.dayName with _ | s
  · rcases hw : inp.weight with _ | w <;>
      (rcases hcase with rfl | rfl | rfl | rfl | rfl | rfl | rfl | rfl | hge
       all_goals (try (exfalso; omega))
       all_goals
         (simp [addExerciseToRoutineHandler, hp, hd, hw, callRemote_apply,
            M_bind_apply, M.pure, failRemote]
          rcases hfq : List.find? (fun x => decide (x.routine = inp.routineId)
              && decide (x.name = "Workout Day")) (o.daysOf inp.routineId)
              with _ | d <;>
            simp [hfq, addExerciseToRoutineHandler, hp, hd, hw,
              callRemote_apply, M_bind_apply, M.pure] at hlt ⊢))
  · by_cases he : s.data.isEmpty = true
    · rcases hw : inp.weight with _ | w <;>
        (rcases hcase with rfl | rfl | rfl | rfl | rfl | rfl | rfl | rfl | hge
         all_goals (try (exfalso; omega))
         all_goals
           (simp [addExerciseToRoutineHandler, hp, hd, he, hw,
              callRemote_apply, M_bind_apply, M.pure, failRemote]
            rcases hfq : List.find? (fun x =>
                decide (x.routine = inp.routineId) &&
                decide (x.name = "Workout Day")) (o.daysOf inp.routineId)
                with _ | d <;>
              simp [hfq, addExerciseToRoutineHandler, hp, hd, he, hw,
                callRemote_apply, M_bind_apply, M.pure] at hlt ⊢))
    · rcases hw : inp.weight with _ | w <;>
        (rcases hcase with rfl | rfl | rfl | rfl | rfl | rfl | rfl | rfl | hge
         all_goals (try (exfalso; omega))
         all_goals
           (simp [addExerciseToRoutineHandler, hp, hd, he, hw,
              callRemote_apply, M_bind_apply, M.pure, failRemote]
            rcases hfq : List.find? (fun x =>
                decide (x.routine = inp.routineId) &&
                decide (x.name = s)) (o.daysOf inp.routineId) with _ | d <;>
              simp [hfq, addExerciseToRoutineHandler, hp, hd, he, hw,
                callRemote_apply, M_bind_apply, M.pure] at hlt ⊢))

/-- C6: when some step of an `addExerciseToRoutine` invocation fails, no
subsequent step is executed (the failing run's requests are exactly the
successful run's requests cut off right after the failing one), the remote
failure is propagated unchanged to the caller, and no delete request is
ever issued for the entities created by the earlier steps. -/
theorem addExercise_failure_aborts_no_compensation (o : Oracle)
    (a : RawArgs) (inp : AddExerciseInput)
    (hp : parseAddExercise a = .ok inp) (failIdx code : Nat)
    (hlt : failIdx <
      (addExerciseToRoutineHandler (oracleRemote o) true a () []).2.2.length) :
    (addExerciseToRoutineHandler (failRemote o failIdx code) true a 0 []).1 =
      .error (.remoteErr code) ∧
    (addExerciseToRoutineHandler (failRemote o failIdx code) true a 0
        []).2.2 =
      (addExerciseToRoutineHandler (oracleRemote o) true a () []).2.2.take
        (failIdx + 1) ∧
    (∀ q ∈ (addExerciseToRoutineHandler (oracleRemote o) true a () []).2.2,
      (match q with
       | Request.deleteDay _ => False
       | Request.deleteSlot _ => False
       | _ => True)) :=
  ⟨(addExercise_abort_truncation o a inp hp failIdx code hlt).1,
   (addExercise_abort_truncation o a inp hp failIdx code hlt).2,
   addExercise_no_deletes o a inp hp⟩

/-- Concrete valid `add_exercise_to_routine` arguments (no weight, no day
name). -/
def addExerciseArgsPlain : RawArgs := fun k =>
  if k = "routineId" then .num 1
  else if k = "exerciseId" then .num 2
  else if k = "sets" then .num 3
  else if k = "reps" then .num 4 else .undefined

/-- Witness for C6: failing the third remote call (the day creation) on an
empty store aborts the run with that failure's code, truncates the request
sequence there, and the successful run issues no delete. -/
theorem addExercise_failure_aborts_witness :
    (addExerciseToRoutineHandler (failRemote oracle0 2 500) true
        addExerciseArgsPlain 0 []).1 = .error (.remoteErr 500) ∧
    (addExerciseToRoutineHandler (failRemote oracle0 2 500) true
        addExerciseArgsPlain 0 []).2.2 =
      (addExerciseToRoutineHandler (oracleRemote oracle0) true
          addExerciseArgsPlain () []).2.2.take 3 ∧
    (∀ q ∈ (addExerciseToRoutineHandler (oracleRemote oracle0) true
        addExerciseArgsPlain () []).2.2,
      (match q with
       | Request.deleteDay _ => False
       | Request.deleteSlot _ => False
       | _ => True)) :=
  addExercise_failure_aborts_no_compensation oracle0 addExerciseArgsPlain
    ⟨1, 2, 3, 4, none, none, none⟩ rfl 2 500 (by decide)
